import Mathlib

/-!
Verification of the mattermost-bridge message-forwarding core.

The definitions below are a shallow embedding of the TypeScript sources:
`src/bridge.ts` (forwarding pipeline, catch-up), `src/mattermost-client.ts`
(WebSocket supervisor, reconnect/backoff, duplicate guard, history fetch)
and `src/message-tracker.ts` (watermark store).  Stateful code is embedded
as explicit state-passing step functions; network and filesystem effects
are parameters (oracles) recording which calls were made and with which
results.  Millisecond timestamps are `Nat`/`Int`; the backoff delay, which
the code computes on IEEE doubles, is embedded over `ℚ` (exact for every
attempt index that matters, since `1.5^k` is an exact double while
`3^k < 2^53` and the 30000 cap absorbs all larger values).
-/

namespace MattermostBridge

/-! ## Excluded-domain filter (bridge.ts, handleMessage lines 219-234) -/

/-- `domain.toLowerCase()` with `'@'` prepended when not already present,
as computed inside the `some` callback of the filter. -/
def normalizeDomain (domain : String) : String :=
  let normalized := domain.toLower
  if normalized.startsWith "@" then normalized else "@" ++ normalized

/-- JavaScript truthiness of the `user.email` field: absent or empty means falsy. -/
def emailTruthy : Option String → Bool
  | none => false
  | some e => e != ""

/-- Embedding of the excluded-domain check in `handleMessage`:
`dontForwardFor.length > 0 && user.email` guards a `some` over the
configured domains comparing `userEmail.endsWith(domainToCheck)`. -/
def shouldExclude (dontForwardFor : List String) (email : Option String) : Bool :=
  if dontForwardFor.length > 0 ∧ emailTruthy email = true then
    let userEmail := (email.getD "").toLower
    dontForwardFor.any fun domain => userEmail.endsWith (normalizeDomain domain)
  else false

/-- The exclusion condition as the claim words it (spec side of the
refinement): a non-empty email whose lowercased form ends with one of the
configured domains, lowercased and `'@'`-prefixed when needed. -/
def excludedPerClaim (domains : List String) (email : Option String) : Prop :=
  ∃ e, email = some e ∧ e ≠ "" ∧
    ∃ d ∈ domains,
      e.toLower.endsWith
        (if d.toLower.startsWith "@" then d.toLower else "@" ++ d.toLower) = true

/-! ## Bounded source→destination id map (bridge.ts, lines 331-343) -/

/-- JavaScript `Map.set` on an insertion-ordered association list: an
existing key keeps its position and gets the new value, a new key is
appended at the end. -/
def assocSet {α : Type} (m : List (String × α)) (k : String) (v : α) :
    List (String × α) :=
  match m with
  | [] => [(k, v)]
  | (k0, v0) :: rest =>
      if k0 = k then (k0, v) :: rest else (k0, v0) :: assocSet rest k v

/-- Keys of the association list in insertion order (oldest first). -/
def assocKeys {α : Type} (m : List (String × α)) : List String :=
  m.map Prod.fst

/-- First-match lookup, the embedding of `Map.get`. -/
def assocFind {α : Type} (m : List (String × α)) (k : String) : Option α :=
  match m with
  | [] => none
  | (k0, v0) :: rest => if k0 = k then some v0 else assocFind rest k

/-- The eviction step of the `messageIdMap` update: if `size > 1000`,
delete `keys().next().value` — the first (oldest-inserted) key — guarded
by JavaScript truthiness of that key. -/
def evictOldest (m1 : List (String × String)) : List (String × String) :=
  if m1.length > 1000 then
    match m1 with
    | [] => m1
    | (k0, _) :: rest => if k0 = "" then m1 else rest
  else m1

/-- The `messageIdMap` update after a successful forward: `set` followed
by the over-capacity eviction. -/
def recordMapping (m : List (String × String)) (sourceId targetId : String) :
    List (String × String) :=
  evictOldest (assocSet m sourceId targetId)

/-! ## Connection supervisor (mattermost-client.ts, connectWebSocket) -/

/-- How the asynchronous part of one `posted`-event handler run ends:
`forwarded` — the bridge handler returned normally and created a
destination post; `handlerDropped` — the handler returned normally
without posting (excluded domain, dry run, or a caught posting error);
`errored` — a step of the WebSocket `message` callback itself threw
(e.g. the `getUser` call rejected), landing in the outer `catch`. -/
inductive DeliveryOutcome
  | forwarded
  | handlerDropped
  | errored
deriving DecidableEq, Repr

/-- One delivery of a `posted` event: the post id, its channel, and how
the asynchronous processing of this delivery ends. -/
structure Delivery where
  id : String
  channelId : String
  outcome : DeliveryOutcome
deriving DecidableEq, Repr

/-- The mutable fields of `MattermostClient` that the WebSocket callbacks
touch, plus the destination posts created through the bridge handler.
`wsConnectionId` is the current connection epoch (`wsConnectionCount`);
`reconnectTimer = some d` models a pending reconnect scheduled after
delay `d`. -/
structure ClientState where
  wsConnectionId : Nat
  reconnectAttempts : Nat
  maxReconnectAttempts : Nat
  reconnectTimer : Option ℚ
  intentionallyClosing : Bool
  lastPongTime : Int
  lastMessageTime : Int
  wsSequence : Nat
  processing : List String
  monitored : List String
  posts : List String
  inFlight : List Delivery
deriving DecidableEq, Repr

/-- `5000 * Math.pow(1.5, attempts - 1)`, exact over `ℚ` (the double
computation is exact for every attempt whose value is below the cap). -/
def backoffBase (attempt : Nat) : ℚ :=
  5000 * (3 / 2) ^ (attempt - 1)

/-- `Math.min(base + jitter, 30000)`: jitter is added before capping. -/
def backoffDelay (attempt : Nat) (jitter : ℚ) : ℚ :=
  min (backoffBase attempt + jitter) 30000

/-- `Math.floor(Math.random() * 1000)` for a random draw `r ∈ [0, 1)`. -/
def mkJitter (r : ℚ) : ℚ :=
  ((⌊r * 1000⌋ : ℤ) : ℚ)

/-- The `open` callback for the socket of epoch `epoch`: after the stale
guard, reset the reconnect-attempt counter, stamp `lastMessageTime`,
cancel any pending reconnect, send the authentication challenge
(`wsSequence` ends at 2), and start the heartbeat (stamping
`lastPongTime`). -/
def handleOpen (epoch : Nat) (now : Int) (s : ClientState) : ClientState :=
  if epoch ≠ s.wsConnectionId then s
  else
    { s with
      reconnectAttempts := 0
      lastMessageTime := now
      reconnectTimer := none
      wsSequence := 2
      lastPongTime := now }

/-- The `pong` callback: after the stale guard, stamp `lastPongTime`. -/
def handlePong (epoch : Nat) (now : Int) (s : ClientState) : ClientState :=
  if epoch ≠ s.wsConnectionId then s
  else { s with lastPongTime := now }

/-- The `close` callback: after the stale guard, an intentional close
resets the flag and cancels any pending reconnect; otherwise, when the
attempt cap is 0 (unlimited) or not yet reached, increment the attempt
counter and schedule a reconnect after the backoff delay; else give up. -/
def handleClose (epoch : Nat) (jitter : ℚ) (s : ClientState) : ClientState :=
  if epoch ≠ s.wsConnectionId then s
  else if s.intentionallyClosing then
    { s with intentionallyClosing := false, reconnectTimer := none }
  else if s.maxReconnectAttempts = 0 ∨
      s.reconnectAttempts < s.maxReconnectAttempts then
    let attempt := s.reconnectAttempts + 1
    { s with
      reconnectAttempts := attempt
      reconnectTimer := some (backoffDelay attempt jitter) }
  else s

/-- The synchronous head of the `posted` branch of the `message`
callback: if the id is already in `processingMessages` the delivery is
dropped as a duplicate; otherwise the id is added, and when the channel
is not monitored the handler returns — without removing the id.
Otherwise the delivery suspends (awaiting `getUser` and the bridge
handler), modeled by joining `inFlight`. -/
def processPostedStart (d : Delivery) (s : ClientState) : ClientState :=
  if d.id ∈ s.processing then s
  else
    let s1 := { s with processing := d.id :: s.processing }
    if d.channelId ∈ s1.monitored then { s1 with inFlight := d :: s1.inFlight }
    else s1

/-- The resumption of an in-flight `posted` delivery: on a normal return
the id is removed from `processingMessages` (and a destination post was
created when the handler forwarded); when a step threw, control jumps to
the outer `catch` and the removal is skipped. -/
def processPostedFinish (d : Delivery) (s : ClientState) : ClientState :=
  if d ∈ s.inFlight then
    let s1 := { s with inFlight := s.inFlight.erase d }
    match d.outcome with
    | .errored => s1
    | .forwarded =>
        { s1 with
          processing := s1.processing.erase d.id
          posts := d.id :: s1.posts }
    | .handlerDropped => { s1 with processing := s1.processing.erase d.id }
  else s

/-- The `message` callback around the `posted` branch: the stale-epoch
guard runs first; a current-epoch message stamps `lastMessageTime` and
enters the `posted` processing. -/
def handleWsPosted (epoch : Nat) (now : Int) (d : Delivery) (s : ClientState) :
    ClientState :=
  if epoch ≠ s.wsConnectionId then s
  else processPostedStart d { s with lastMessageTime := now }

/-- A client state as it stands right after a successful connect: epoch 1,
no pending reconnect, one monitored channel `"chan"`, nothing in flight. -/
def baseClientState : ClientState where
  wsConnectionId := 1
  reconnectAttempts := 0
  maxReconnectAttempts := 0
  reconnectTimer := none
  intentionallyClosing := false
  lastPongTime := 0
  lastMessageTime := 0
  wsSequence := 2
  processing := []
  monitored := ["chan"]
  posts := []
  inFlight := []

/-- A client state with one delivery of message `"m1"` in flight. -/
def busyClientState : ClientState :=
  { baseClientState with
      processing := ["m1"]
      inFlight := [⟨"m1", "chan", .forwarded⟩] }

/-! ## Catch-up fetch (mattermost-client.ts, getMessagesSince;
bridge.ts, performCatchUp) -/

/-- A raw post as returned by the history API. -/
structure Post where
  id : String
  channelId : String
  userId : String
  body : String
  createAt : Nat
  postType : String
deriving DecidableEq, Repr

/-- The system-message skip in the conversion loop:
`if (post.type && post.type.startsWith('system_')) continue`. -/
def keepNonSystem (p : Post) : Bool :=
  !(p.postType != "" && p.postType.startsWith "system_")

/-- Ascending insertion by `create_at`, the building block of the final
`messages.sort((a, b) => a.create_at - b.create_at)`. -/
def insertByCreateAt (p : Post) : List Post → List Post
  | [] => [p]
  | q :: rest =>
      if p.createAt ≤ q.createAt then p :: q :: rest
      else q :: insertByCreateAt p rest

/-- Sorting ascending by `create_at` (oldest first). -/
def sortByCreateAt : List Post → List Post
  | [] => []
  | p :: rest => insertByCreateAt p (sortByCreateAt rest)

/-- Embedding of `getMessagesSince`: `sinceApiPosts` is the server's
response to the `since`-parameter request (empty when that request failed
or matched nothing); when it is empty the fallback fetches recent posts
(`allPosts`) and filters manually by `post.create_at >= sinceTimestamp`,
truncating to `limit`; either way system messages are skipped and the
result is sorted ascending by creation time. -/
def getMessagesSinceModel (sinceApiPosts allPosts : List Post)
    (sinceTimestamp limit : Nat) : List Post :=
  let selected :=
    if sinceApiPosts.isEmpty then
      ((allPosts.filter fun p => decide (sinceTimestamp ≤ p.createAt)).take limit)
    else sinceApiPosts
  sortByCreateAt (selected.filter keepNonSystem)

/-- The `sinceTimestamp` computed by `performCatchUp`: watermark
timestamp plus one millisecond when a watermark exists, otherwise a
24-hour lookback from now. -/
def catchUpSince (watermark : Option Nat) (now : Nat) : Nat :=
  match watermark with
  | some lastForwardedTimestamp => lastForwardedTimestamp + 1
  | none => now - 24 * 60 * 60 * 1000

/-- The messages `performCatchUp` replays for one channel. -/
def catchUpMessages (watermark : Option Nat) (now : Nat)
    (sinceApiPosts allPosts : List Post) (limit : Nat) : List Post :=
  getMessagesSinceModel sinceApiPosts allPosts (catchUpSince watermark now) limit

/-! ## Forwarding pipeline effect traces (bridge.ts, handleMessage and
handleMessageEdit) -/

/-- The configuration flags `handleMessage`/`handleMessageEdit` read. -/
structure BridgeConfig where
  dryRun : Bool
  dontForwardFor : List String
deriving DecidableEq, Repr

/-- An inbound `MattermostMessage`. -/
structure Msg where
  id : String
  channelId : String
  userId : String
  body : String
  createAt : Nat
  editAt : Option Nat
  fileIds : List String
deriving DecidableEq, Repr

/-- A network call issued against the destination (right) client. -/
inductive DestCall
  | uploadProfilePicture (filename : String)
  | uploadMultipleFiles (count : Nat)
  | postMessageWithAttachment
  | getPost (postId : String)
  | updateMessage (postId : String)
deriving DecidableEq, Repr

/-- Results of the source-side and cache lookups `handleMessage`
performs before deciding what to send to the destination. -/
structure MsgOracle where
  userEmail : Option String
  ppCacheHit : Option String
  ppDownloadOk : Bool
  fileDownloadOk : String → Bool

/-- The `trackBridgeEvent` outcome of one `handleMessage` run. -/
inductive BridgeEvent
  | messageExcluded
  | messageDryRun
  | messageBridged
deriving DecidableEq, Repr

/-- Embedding of `handleMessage` as the sequence of destination-side
calls it issues plus the bridge event it tracks: excluded-domain check,
avatar replication (cache miss and successful download lead to an
upload), attachment replication (an upload when at least one file
downloaded), then — only outside dry-run — the final post. -/
def handleMessageRun (cfg : BridgeConfig) (o : MsgOracle) (msg : Msg) :
    List DestCall × BridgeEvent :=
  if shouldExclude cfg.dontForwardFor o.userEmail then ([], .messageExcluded)
  else
    let ppCalls :=
      match o.ppCacheHit with
      | some _ => []
      | none =>
          if o.ppDownloadOk then
            [DestCall.uploadProfilePicture (msg.userId ++ "_profile.png")]
          else []
    let downloaded := msg.fileIds.filter o.fileDownloadOk
    let fileCalls :=
      if downloaded.length > 0 then
        [DestCall.uploadMultipleFiles downloaded.length]
      else []
    if cfg.dryRun then (ppCalls ++ fileCalls, .messageDryRun)
    else (ppCalls ++ fileCalls ++ [DestCall.postMessageWithAttachment],
      .messageBridged)

/-- The destination post `getPost` resolves for an edit; `postType` is
its `type` field (empty for regular posts). -/
structure TargetPost where
  postType : String
deriving DecidableEq, Repr

/-- Results of the destination lookups/calls the edit path performs:
`targetPost = none` models `getPost` returning `null`; `updateFails`
models `updateMessage` rejecting (rethrown, caught by the outer catch). -/
structure EditOracle where
  targetPost : Option TargetPost
  updateFails : Bool
deriving DecidableEq, Repr

/-- How one `handleMessageEdit` run ends (which branch logged). -/
inductive EditOutcome
  | ignoredUser
  | noMapping
  | postFetchFailed
  | systemMessage
  | wouldUpdateDryRun
  | updated
deriving DecidableEq, Repr

/-- Embedding of `handleMessageEdit`: destination calls, outcome, and
whether an error reached the outer catch. The excluded-user check runs
first, then the `messageIdMap` lookup (log and drop when absent), then
`getPost` (drop on `null` or a system-typed post), then the update —
replaced by a log line in dry-run. -/
def handleMessageEditRun (cfg : BridgeConfig) (o : EditOracle)
    (idMap : List (String × String)) (msg : Msg) :
    List DestCall × EditOutcome × Bool :=
  if cfg.dontForwardFor.contains msg.userId then ([], .ignoredUser, false)
  else
    match assocFind idMap msg.id with
    | none => ([], .noMapping, false)
    | some targetId =>
        match o.targetPost with
        | none => ([DestCall.getPost targetId], .postFetchFailed, false)
        | some tp =>
            if tp.postType != "" then
              ([DestCall.getPost targetId], .systemMessage, false)
            else if cfg.dryRun then
              ([DestCall.getPost targetId], .wouldUpdateDryRun, false)
            else
              ([DestCall.getPost targetId, DestCall.updateMessage targetId],
                .updated, o.updateFails)

/-- A call that submits content to the destination (the final post or
update of a forward/edit). -/
def isSubmitCall : DestCall → Bool
  | .postMessageWithAttachment => true
  | .updateMessage _ => true
  | _ => false

/-! ## Watermark store (message-tracker.ts) -/

/-- One `TrackedChannel` record (the `lastUpdateTime` wall-clock string
is omitted: no claim reads it). -/
structure TrackedRecord where
  lastForwardedMessageId : String
  lastForwardedTimestamp : Nat
deriving DecidableEq, Repr

/-- Which filesystem operations fail during this run: `initFails` covers
directory creation and reading of the backing file, `writeFails` covers
`writeFileSync`. -/
structure FsBehavior where
  initFails : Bool
  writeFails : Bool
deriving DecidableEq, Repr

/-- The observable state of a `MessageTracker`: the in-memory channel
records, how many persistence errors were logged, and how many write
attempts were made against the backing file. -/
structure TrackerState where
  enabled : Bool
  channels : List (String × TrackedRecord)
  persistenceWarnings : Nat
  writeAttempts : Nat
deriving DecidableEq, Repr

/-- Embedding of `save`: when enabled, always attempt the write; a
failure is caught and logged (once per failed attempt). -/
def saveTracker (fs : FsBehavior) (s : TrackerState) : TrackerState :=
  if s.enabled = false then s
  else
    let s1 := { s with writeAttempts := s.writeAttempts + 1 }
    if fs.writeFails then
      { s1 with persistenceWarnings := s1.persistenceWarnings + 1 }
    else s1

/-- Embedding of the constructor plus `loadOrInitialize`: disabled means
no state; an initialization failure is caught, logged once, and leaves
empty in-memory data — with no memory-only flag set; a fresh start with a
working filesystem writes the initial file. `existing` is the parsed
backing file when one exists. -/
def initTracker (enabled : Bool) (fs : FsBehavior)
    (existing : Option (List (String × TrackedRecord))) : TrackerState :=
  if enabled = false then ⟨false, [], 0, 0⟩
  else if fs.initFails then ⟨true, [], 1, 0⟩
  else
    match existing with
    | some data => ⟨true, data, 0, 0⟩
    | none => saveTracker fs ⟨true, [], 0, 0⟩

/-- Embedding of `trackForwardedMessage`: update the in-memory record,
then `save`. -/
def trackForwardedMessage (fs : FsBehavior) (s : TrackerState)
    (channelId messageId : String) (timestamp : Nat) : TrackerState :=
  if s.enabled = false then s
  else
    saveTracker fs
      { s with channels := assocSet s.channels channelId ⟨messageId, timestamp⟩ }

/-- Embedding of `getLastForwardedMessage`. -/
def getLastForwardedMessage (s : TrackerState) (channelId : String) :
    Option TrackedRecord :=
  if s.enabled = false then none
  else assocFind s.channels channelId

theorem assocSet_append_of_not_mem {α : Type} (m : List (String × α))
    (k : String) (v : α) (h : k ∉ assocKeys m) :
    assocSet m k v = m ++ [(k, v)] := by
  induction m with
  | nil => rfl
  | cons hd tl ih =>
      obtain ⟨k0, v0⟩ := hd
      simp only [assocKeys, List.map_cons, List.mem_cons] at h
      push_neg at h
      simp only [assocSet, if_neg (Ne.symm h.1), List.cons_append]
      rw [ih]
      intro hmem
      exact h.2 hmem

theorem assocSet_length {α : Type} (m : List (String × α)) (k : String) (v : α) :
    (assocSet m k v).length = if k ∈ assocKeys m then m.length else m.length + 1 := by
  induction m with
  | nil => simp [assocSet, assocKeys]
  | cons hd tl ih =>
      obtain ⟨k0, v0⟩ := hd
      by_cases hk : k0 = k
      · subst hk
        simp [assocSet, assocKeys]
      · simp only [assocSet, if_neg hk, List.length_cons, ih, assocKeys,
          List.map_cons, List.mem_cons]
        by_cases hmem : k ∈ assocKeys tl
        · simp [assocKeys] at hmem
          simp [hmem, Ne.symm hk, assocKeys]
        · simp [assocKeys] at hmem
          simp [hmem, Ne.symm hk, assocKeys]

theorem assocFind_assocSet_self {α : Type} (m : List (String × α))
    (k : String) (v : α) : assocFind (assocSet m k v) k = some v := by
  induction m with
  | nil => simp [assocSet, assocFind]
  | cons hd tl ih =>
      obtain ⟨k0, v0⟩ := hd
      by_cases hk : k0 = k
      · simp [assocSet, assocFind, hk]
      · simp [assocSet, assocFind, hk, ih]

/-- Claim C10: a message is excluded by the domain filter iff the author
has a non-empty email whose lowercased form ends with one of the
configured domains, lowercased and `'@'`-prefixed when not already; and
an author with no email is never excluded even with a non-empty filter. -/
theorem shouldExclude_iff_excludedPerClaim (domains : List String)
    (email : Option String) :
    (shouldExclude domains email = true ↔ excludedPerClaim domains email) ∧
    shouldExclude domains none = false := by
  refine ⟨⟨?_, ?_⟩, ?_⟩
  · intro h
    unfold shouldExclude at h
    split at h
    · rename_i hguard
      obtain ⟨hlen, htruthy⟩ := hguard
      cases email with
      | none => simp [emailTruthy] at htruthy
      | some e =>
          simp only [emailTruthy, bne_iff_ne, ne_eq] at htruthy
          simp only [Option.getD_some, List.any_eq_true] at h
          obtain ⟨d, hd, hends⟩ := h
          exact ⟨e, rfl, htruthy, d, hd, by simpa [normalizeDomain] using hends⟩
    · simp at h
  · intro h
    obtain ⟨e, he, hne, d, hd, hends⟩ := h
    subst he
    unfold shouldExclude
    have hguard : domains.length > 0 ∧ emailTruthy (some e) = true := by
      refine ⟨?_, by simpa [emailTruthy] using hne⟩
      cases domains with
      | nil => cases hd
      | cons x xs => simp
    rw [if_pos hguard]
    simp only [Option.getD_some, List.any_eq_true]
    exact ⟨d, hd, by simpa [normalizeDomain] using hends⟩
  · unfold shouldExclude
    rw [if_neg]
    rintro ⟨-, h2⟩
    simp [emailTruthy] at h2

theorem evictOldest_of_le (m1 : List (String × String))
    (h : m1.length ≤ 1000) : evictOldest m1 = m1 := by
  unfold evictOldest
  rw [if_neg (by omega)]

theorem evictOldest_cons_of_gt (k0 : String) (v0 : String)
    (rest : List (String × String)) (hk0 : k0 ≠ "")
    (h : ((k0, v0) :: rest).length > 1000) :
    evictOldest ((k0, v0) :: rest) = rest := by
  unfold evictOldest
  rw [if_pos h]
  simp [hk0]

/-- Claim C7: with every key non-empty, inserting into the bounded
source→destination id map keeps the size at or below the 1000-entry
capacity, and inserting a fresh key into a full map evicts exactly the
oldest-inserted entry. -/
theorem recordMapping_bounded (m : List (String × String))
    (s t : String) (hkeys : "" ∉ assocKeys m) :
    (m.length ≤ 1000 → (recordMapping m s t).length ≤ 1000) ∧
    (m.length = 1000 → s ∉ assocKeys m →
      recordMapping m s t = m.drop 1 ++ [(s, t)]) := by
  have hdrop : m.length = 1000 → s ∉ assocKeys m →
      recordMapping m s t = m.drop 1 ++ [(s, t)] := by
    intro hfull hmem
    unfold recordMapping
    rw [assocSet_append_of_not_mem m s t hmem]
    cases m with
    | nil => simp at hfull
    | cons hd tl =>
        obtain ⟨k0, v0⟩ := hd
        have hk0 : k0 ≠ "" := by
          intro hcontra
          exact hkeys (by simp [assocKeys, hcontra])
        have hlen : (((k0, v0) :: tl) ++ [(s, t)]).length > 1000 := by
          simp only [List.length_append, List.length_cons] at hfull ⊢
          omega
        rw [List.cons_append, evictOldest_cons_of_gt k0 v0 (tl ++ [(s, t)]) hk0
          (by simpa using hlen)]
        simp
  refine ⟨?_, hdrop⟩
  intro hlen
  by_cases hmem : s ∈ assocKeys m
  · have h1 : (assocSet m s t).length = m.length := by
      rw [assocSet_length, if_pos hmem]
    unfold recordMapping
    rw [evictOldest_of_le _ (by omega)]
    omega
  · have h1 : (assocSet m s t).length = m.length + 1 := by
      rw [assocSet_length, if_neg hmem]
    by_cases hfull : m.length = 1000
    · rw [hdrop hfull hmem]
      cases m with
      | nil => simp at hfull
      | cons hd tl =>
          simp only [List.length_cons] at hfull
          simp only [List.drop_succ_cons, List.drop_zero, List.length_append,
            List.length_cons, List.length_nil]
          omega
    · unfold recordMapping
      rw [evictOldest_of_le _ (by omega)]
      omega

/-- Concrete instance of `recordMapping_bounded`. -/
theorem recordMapping_bounded_instance :
    ([("a", "x")].length ≤ 1000 →
      (recordMapping [("a", "x")] "b" "y").length ≤ 1000) ∧
    ([("a", "x")].length = 1000 → "b" ∉ assocKeys [("a", "x")] →
      recordMapping [("a", "x")] "b" "y" = [("a", "x")].drop 1 ++ [("b", "y")]) :=
  recordMapping_bounded [("a", "x")] "b" "y" (by decide)

/-- Claim C1 counterexample: the duplicate guard releases the id once the
handler completes, so a second, later delivery of an id that was already
forwarded is processed again and a second destination post is created:
after start/finish/start/finish of the same `"m1"` delivery, two posts
exist for `"m1"`. -/
theorem second_arrival_reposted :
    (processPostedFinish ⟨"m1", "chan", .forwarded⟩
      (processPostedStart ⟨"m1", "chan", .forwarded⟩
        (processPostedFinish ⟨"m1", "chan", .forwarded⟩
          (processPostedStart ⟨"m1", "chan", .forwarded⟩
            baseClientState)))).posts = ["m1", "m1"] := by
  decide

/-- Claim C1 (amended): the duplicate guard covers only in-flight
processing — a `posted` delivery whose id is currently in
`processingMessages` is dropped with no state change and no destination
post; once the guard entry is released a new delivery of the same id is
forwarded again. -/
theorem inflight_duplicate_skipped (d : Delivery) (s : ClientState)
    (h : d.id ∈ s.processing) :
    processPostedStart d s = s ∧ (processPostedStart d s).posts = s.posts := by
  have heq : processPostedStart d s = s := by
    unfold processPostedStart
    rw [if_pos h]
  exact ⟨heq, by rw [heq]⟩

/-- Concrete instance of `inflight_duplicate_skipped`. -/
theorem inflight_duplicate_skipped_instance :
    processPostedStart ⟨"m1", "chan", .forwarded⟩
        { baseClientState with processing := ["m1"] } =
      { baseClientState with processing := ["m1"] } ∧
    (processPostedStart ⟨"m1", "chan", .forwarded⟩
        { baseClientState with processing := ["m1"] }).posts =
      ({ baseClientState with processing := ["m1"] } : ClientState).posts :=
  inflight_duplicate_skipped ⟨"m1", "chan", .forwarded⟩
    { baseClientState with processing := ["m1"] } (by decide)

/-- Claim C2: for a non-intentional close at the current epoch with the
default cap 0, a reconnect is always scheduled with delay
`min(5000·1.5^(attempt−1) + jitter, 30000)`; the jitter lies in 0..1000 ms
and is added before the cap; ignoring jitter the delay is exactly
`min(5000·1.5^(attempt−1), 30000)`; and a successful open resets the
attempt counter to 0. -/
theorem backoff_policy (s : ClientState) (r : ℚ) (now : Int) (e : Nat)
    (he : e = s.wsConnectionId) (hr0 : 0 ≤ r) (hr1 : r < 1)
    (hintent : s.intentionallyClosing = false)
    (hcap : s.maxReconnectAttempts = 0) :
    (handleClose e (mkJitter r) s).reconnectTimer =
      some (backoffDelay (s.reconnectAttempts + 1) (mkJitter r)) ∧
    0 ≤ mkJitter r ∧ mkJitter r ≤ 1000 ∧
    backoffDelay (s.reconnectAttempts + 1) 0 =
      min (5000 * (3 / 2 : ℚ) ^ s.reconnectAttempts) 30000 ∧
    (handleOpen e now s).reconnectAttempts = 0 := by
  refine ⟨?_, ?_, ?_, ?_, ?_⟩
  · simp [handleClose, he, hintent, hcap]
  · unfold mkJitter
    have h0 : (0 : ℤ) ≤ ⌊r * 1000⌋ := Int.floor_nonneg.mpr (by positivity)
    exact_mod_cast h0
  · unfold mkJitter
    have hlt : ⌊r * 1000⌋ < 1000 := by
      rw [Int.floor_lt]
      push_cast
      nlinarith
    have hle : ⌊r * 1000⌋ ≤ 1000 := le_of_lt hlt
    exact_mod_cast hle
  · unfold backoffDelay backoffBase
    rw [add_zero, Nat.add_sub_cancel]
  · simp [handleOpen, he]

/-- Concrete instance of `backoff_policy`. -/
theorem backoff_policy_instance :
    (handleClose 1 (mkJitter (1 / 2)) baseClientState).reconnectTimer =
      some (backoffDelay (baseClientState.reconnectAttempts + 1)
        (mkJitter (1 / 2))) ∧
    0 ≤ mkJitter (1 / 2) ∧ mkJitter (1 / 2) ≤ 1000 ∧
    backoffDelay (baseClientState.reconnectAttempts + 1) 0 =
      min (5000 * (3 / 2 : ℚ) ^ baseClientState.reconnectAttempts) 30000 ∧
    (handleOpen 1 0 baseClientState).reconnectAttempts = 0 :=
  backoff_policy baseClientState (1 / 2) 0 1 rfl (by norm_num) (by norm_num)
    rfl rfl

/-- Claim C3: a stream callback (open, message, pong, close) whose
captured epoch differs from the current connection epoch produces no
state change; in particular a stale close leaves the reconnect timer
untouched and a stale message never reaches the `posted` processing. -/
theorem stale_epoch_ignored (epoch : Nat) (now : Int) (jitter : ℚ)
    (d : Delivery) (s : ClientState) (h : epoch ≠ s.wsConnectionId) :
    handleOpen epoch now s = s ∧
    handlePong epoch now s = s ∧
    handleWsPosted epoch now d s = s ∧
    handleClose epoch jitter s = s ∧
    (handleClose epoch jitter s).reconnectTimer = s.reconnectTimer := by
  refine ⟨?_, ?_, ?_, ?_, ?_⟩ <;>
    simp [handleOpen, handlePong, handleWsPosted, handleClose, h]

/-- Concrete instance of `stale_epoch_ignored`. -/
theorem stale_epoch_ignored_instance :
    handleOpen 2 7 baseClientState = baseClientState ∧
    handlePong 2 7 baseClientState = baseClientState ∧
    handleWsPosted 2 7 ⟨"m1", "chan", .forwarded⟩ baseClientState =
      baseClientState ∧
    handleClose 2 0 baseClientState = baseClientState ∧
    (handleClose 2 0 baseClientState).reconnectTimer =
      baseClientState.reconnectTimer :=
  stale_epoch_ignored 2 7 0 ⟨"m1", "chan", .forwarded⟩ baseClientState
    (by decide)

/-- Claim C5 counterexample: the guard entry is not released in a
`finally`-style path — after a step of the `posted` handler throws the id
stays in `processingMessages`, and a message dropped for an unmonitored
channel leaves its id in the guard with nothing in flight to release it. -/
theorem guard_not_released_counterexample :
    ("m1" ∈ (processPostedFinish ⟨"m1", "chan", .errored⟩
        (processPostedStart ⟨"m1", "chan", .errored⟩
          baseClientState)).processing) ∧
    (processPostedStart ⟨"m2", "other", .forwarded⟩
        baseClientState).processing = ["m2"] ∧
    (processPostedStart ⟨"m2", "other", .forwarded⟩
        baseClientState).inFlight = [] := by
  decide

/-- Claim C5 (amended): the duplicate-processing guard entry is released
only when the handler run completes without throwing; when a step throws,
or the message is dropped because its channel is unmonitored, the entry
remains, so later deliveries of that id are treated as duplicates. -/
theorem guard_release_paths (d : Delivery) (s : ClientState)
    (hnodup : s.processing.Nodup) :
    (d ∈ s.inFlight → d.outcome ≠ .errored →
      d.id ∉ (processPostedFinish d s).processing) ∧
    (d.outcome = .errored →
      (processPostedFinish d s).processing = s.processing) ∧
    (d.channelId ∉ s.monitored → d.id ∉ s.processing →
      d.id ∈ (processPostedStart d s).processing ∧
      (processPostedStart d s).inFlight = s.inFlight) := by
  obtain ⟨did, dch, dout⟩ := d
  refine ⟨?_, ?_, ?_⟩
  · intro hmem houtcome
    unfold processPostedFinish
    rw [if_pos hmem]
    cases dout with
    | errored => exact absurd rfl houtcome
    | forwarded =>
        simp only
        intro hc
        rw [List.Nodup.mem_erase_iff hnodup] at hc
        exact hc.1 rfl
    | handlerDropped =>
        simp only
        intro hc
        rw [List.Nodup.mem_erase_iff hnodup] at hc
        exact hc.1 rfl
  · intro hout
    cases hout
    unfold processPostedFinish
    by_cases hmem : (⟨did, dch, .errored⟩ : Delivery) ∈ s.inFlight
    · rw [if_pos hmem]
    · rw [if_neg hmem]
  · intro hchan hid
    unfold processPostedStart
    simp only at hchan hid ⊢
    rw [if_neg hid, if_neg hchan]
    exact ⟨List.mem_cons_self _ _, rfl⟩

/-- Concrete instance of `guard_release_paths`. -/
theorem guard_release_paths_instance :
    ((⟨"m1", "chan", .forwarded⟩ : Delivery) ∈ busyClientState.inFlight →
      (⟨"m1", "chan", DeliveryOutcome.forwarded⟩ : Delivery).outcome ≠
        .errored →
      ("m1" : String) ∉ (processPostedFinish ⟨"m1", "chan", .forwarded⟩
        busyClientState).processing) ∧
    ((⟨"m1", "chan", DeliveryOutcome.forwarded⟩ : Delivery).outcome =
        .errored →
      (processPostedFinish ⟨"m1", "chan", .forwarded⟩
          busyClientState).processing = busyClientState.processing) ∧
    (("chan" : String) ∉ busyClientState.monitored →
      ("m1" : String) ∉ busyClientState.processing →
      ("m1" : String) ∈ (processPostedStart ⟨"m1", "chan", .forwarded⟩
        busyClientState).processing ∧
      (processPostedStart ⟨"m1", "chan", .forwarded⟩
          busyClientState).inFlight = busyClientState.inFlight) :=
  guard_release_paths ⟨"m1", "chan", .forwarded⟩ busyClientState (by decide)

theorem mem_insertByCreateAt (p a : Post) (l : List Post) :
    a ∈ insertByCreateAt p l ↔ a = p ∨ a ∈ l := by
  induction l with
  | nil => simp [insertByCreateAt]
  | cons q rest ih =>
      unfold insertByCreateAt
      by_cases h : p.createAt ≤ q.createAt
      · simp [h]
      · simp only [if_neg h, List.mem_cons, ih]
        tauto

theorem mem_sortByCreateAt (a : Post) (l : List Post) :
    a ∈ sortByCreateAt l ↔ a ∈ l := by
  induction l with
  | nil => simp [sortByCreateAt]
  | cons q rest ih =>
      simp [sortByCreateAt, mem_insertByCreateAt, ih, eq_comm]

/-- Claim C4: when a watermark with timestamp `T` exists, every message
catch-up fetches and replays has creation timestamp strictly greater
than `T` — assuming the history API honors the documented contract that
the `since`-parameter response only contains posts created at or after
the requested timestamp. -/
theorem catchUp_strictly_after_watermark (lastTs now limit : Nat)
    (sinceApiPosts allPosts : List Post) (m : Post)
    (happi : ∀ p ∈ sinceApiPosts, catchUpSince (some lastTs) now ≤ p.createAt)
    (hm : m ∈ catchUpMessages (some lastTs) now sinceApiPosts allPosts limit) :
    lastTs < m.createAt := by
  unfold catchUpMessages getMessagesSinceModel at hm
  rw [mem_sortByCreateAt] at hm
  rw [List.mem_filter] at hm
  obtain ⟨hsel, -⟩ := hm
  have hsince : catchUpSince (some lastTs) now = lastTs + 1 := rfl
  by_cases hempty : sinceApiPosts.isEmpty
  · rw [if_pos hempty] at hsel
    have hsel2 := List.mem_of_mem_take hsel
    rw [List.mem_filter] at hsel2
    have := of_decide_eq_true hsel2.2
    omega
  · rw [if_neg hempty] at hsel
    have := happi m hsel
    rw [hsince] at this
    omega

/-- Concrete instance of `catchUp_strictly_after_watermark`. -/
theorem catchUp_strictly_after_watermark_instance :
    (100 : Nat) < (⟨"p1", "chan", "u1", "hello", 150, ""⟩ : Post).createAt :=
  catchUp_strictly_after_watermark 100 0 10 []
    [⟨"p1", "chan", "u1", "hello", 150, ""⟩]
    ⟨"p1", "chan", "u1", "hello", 150, ""⟩ (by simp) (by decide)

/-- Claim C6 counterexample: in dry-run mode, processing a message with
a cache-missed avatar and one downloadable attachment still issues two
destination-side network calls (the avatar upload and the file upload) —
dry-run is not free of destination-side side effects. -/
theorem dryRun_side_effect_counterexample :
    (handleMessageRun ⟨true, []⟩ ⟨none, none, true, fun _ => true⟩
        ⟨"m1", "chan", "u1", "hi", 100, none, ["f1"]⟩).1 =
      [DestCall.uploadProfilePicture "u1_profile.png",
        DestCall.uploadMultipleFiles 1] := by
  decide

/-- Claim C6 (amended): dry-run surfaces the would-forward / would-skip /
would-update decision and replaces only the final submit/update call:
the real run issues exactly the dry run's destination calls plus the
final post (when not excluded), the dry run tracks the excluded or
dry-run decision, and on the edit path the real run's calls extend the
dry run's calls only by submit calls. Avatar and attachment uploads to
the destination happen in both modes. -/
theorem dryRun_replaces_only_submit (cfg : BridgeConfig) (o : MsgOracle)
    (msg : Msg) (oe : EditOracle) (idMap : List (String × String))
    (emsg : Msg) :
    ((handleMessageRun { cfg with dryRun := false } o msg).1 =
      (handleMessageRun { cfg with dryRun := true } o msg).1 ++
        (if shouldExclude cfg.dontForwardFor o.userEmail then []
         else [DestCall.postMessageWithAttachment])) ∧
    ((handleMessageRun { cfg with dryRun := true } o msg).2 =
      if shouldExclude cfg.dontForwardFor o.userEmail then .messageExcluded
      else .messageDryRun) ∧
    (∃ tail,
      (handleMessageEditRun { cfg with dryRun := false } oe idMap emsg).1 =
        (handleMessageEditRun { cfg with dryRun := true } oe idMap emsg).1 ++
          tail ∧
      tail.all isSubmitCall = true) := by
  refine ⟨?_, ?_, ?_⟩
  · unfold handleMessageRun
    by_cases hex : shouldExclude cfg.dontForwardFor o.userEmail = true
    · simp [hex]
    · rw [Bool.not_eq_true] at hex
      simp [hex]
  · unfold handleMessageRun
    by_cases hex : shouldExclude cfg.dontForwardFor o.userEmail = true
    · simp [hex]
    · rw [Bool.not_eq_true] at hex
      simp [hex]
  · unfold handleMessageEditRun
    by_cases hu : emsg.userId ∈ cfg.dontForwardFor
    · exact ⟨[], by simp [hu, isSubmitCall]⟩
    · cases hfind : assocFind idMap emsg.id with
      | none => exact ⟨[], by simp [hu, hfind, isSubmitCall]⟩
      | some targetId =>
          cases htp : oe.targetPost with
          | none => exact ⟨[], by simp [hu, hfind, htp, isSubmitCall]⟩
          | some tp =>
              by_cases hsys : tp.postType = ""
              · exact ⟨[DestCall.updateMessage targetId],
                  by simp [hu, hfind, htp, hsys, isSubmitCall]⟩
              · exact ⟨[], by simp [hu, hfind, htp, hsys, isSubmitCall]⟩

/-- Claim C8: an edit event whose source id has no entry in the
source→destination id map issues no destination call, ends in a logged
drop (the no-mapping or excluded-user log line), and no error reaches
the outer catch. -/
theorem edit_without_mapping_dropped (cfg : BridgeConfig) (o : EditOracle)
    (idMap : List (String × String)) (msg : Msg)
    (h : assocFind idMap msg.id = none) :
    (handleMessageEditRun cfg o idMap msg).1 = [] ∧
    ((handleMessageEditRun cfg o idMap msg).2.1 = .noMapping ∨
      (handleMessageEditRun cfg o idMap msg).2.1 = .ignoredUser) ∧
    (handleMessageEditRun cfg o idMap msg).2.2 = false := by
  unfold handleMessageEditRun
  by_cases hu : msg.userId ∈ cfg.dontForwardFor
  · simp [hu]
  · simp [hu, h]

/-- Concrete instance of `edit_without_mapping_dropped`. -/
theorem edit_without_mapping_dropped_instance :
    (handleMessageEditRun ⟨false, []⟩ ⟨some ⟨""⟩, false⟩ []
        ⟨"m9", "chan", "u1", "hi", 100, some 200, []⟩).1 = [] ∧
    ((handleMessageEditRun ⟨false, []⟩ ⟨some ⟨""⟩, false⟩ []
        ⟨"m9", "chan", "u1", "hi", 100, some 200, []⟩).2.1 =
        .noMapping ∨
      (handleMessageEditRun ⟨false, []⟩ ⟨some ⟨""⟩, false⟩ []
        ⟨"m9", "chan", "u1", "hi", 100, some 200, []⟩).2.1 =
        .ignoredUser) ∧
    (handleMessageEditRun ⟨false, []⟩ ⟨some ⟨""⟩, false⟩ []
        ⟨"m9", "chan", "u1", "hi", 100, some 200, []⟩).2.2 = false :=
  edit_without_mapping_dropped ⟨false, []⟩ ⟨some ⟨""⟩, false⟩ []
    ⟨"m9", "chan", "u1", "hi", 100, some 200, []⟩ (by decide)

/-- Claim C9 counterexample: after a failed initialization the tracker
does not switch to memory-only mode and does not warn exactly once —
two subsequent forwards each re-attempt the write (2 attempts) and each
log a persistence error (3 warnings in total, not 1). -/
theorem tracker_memory_only_counterexample :
    (trackForwardedMessage ⟨true, true⟩
        (trackForwardedMessage ⟨true, true⟩
          (initTracker true ⟨true, true⟩ none) "c" "m1" 5)
        "c" "m2" 6).writeAttempts = 2 ∧
    (trackForwardedMessage ⟨true, true⟩
        (trackForwardedMessage ⟨true, true⟩
          (initTracker true ⟨true, true⟩ none) "c" "m1" 5)
        "c" "m2" 6).persistenceWarnings = 3 := by
  decide

/-- Claim C9 (amended): an initialization failure is caught and logged
once and leaves empty in-memory state, and no persistence failure ever
escapes — but the store does not switch to memory-only mode: every later
`trackForwardedMessage` re-attempts the write, logging another warning
when it fails, while the in-memory record is updated and readable. -/
theorem tracker_degrades_to_memory (fs : FsBehavior) (s : TrackerState)
    (c m : String) (t : Nat) (hen : s.enabled = true) :
    (initTracker true fs none).persistenceWarnings ≤ 1 ∧
    (fs.initFails = true → initTracker true fs none =
      ⟨true, [], 1, 0⟩) ∧
    (trackForwardedMessage fs s c m t).writeAttempts = s.writeAttempts + 1 ∧
    (fs.writeFails = true →
      (trackForwardedMessage fs s c m t).persistenceWarnings =
        s.persistenceWarnings + 1) ∧
    getLastForwardedMessage (trackForwardedMessage fs s c m t) c =
      some ⟨m, t⟩ := by
  refine ⟨?_, ?_, ?_, ?_, ?_⟩
  · unfold initTracker saveTracker
    by_cases hinit : fs.initFails = true
    · simp [hinit]
    · rw [Bool.not_eq_true] at hinit
      by_cases hw : fs.writeFails = true
      · simp [hinit, hw]
      · rw [Bool.not_eq_true] at hw
        simp [hinit, hw]
  · intro hinit
    simp [initTracker, hinit]
  · unfold trackForwardedMessage saveTracker
    by_cases hw : fs.writeFails = true
    · simp [hen, hw]
    · rw [Bool.not_eq_true] at hw
      simp [hen, hw]
  · intro hw
    unfold trackForwardedMessage saveTracker
    simp [hen, hw]
  · unfold trackForwardedMessage saveTracker getLastForwardedMessage
    by_cases hw : fs.writeFails = true
    · simp [hen, hw, assocFind_assocSet_self]
    · rw [Bool.not_eq_true] at hw
      simp [hen, hw, assocFind_assocSet_self]

/-- Concrete instance of `tracker_degrades_to_memory`. -/
theorem tracker_degrades_to_memory_instance :
    (initTracker true ⟨true, true⟩ none).persistenceWarnings ≤ 1 ∧
    ((⟨true, true⟩ : FsBehavior).initFails = true →
      initTracker true ⟨true, true⟩ none = ⟨true, [], 1, 0⟩) ∧
    (trackForwardedMessage ⟨true, true⟩ ⟨true, [], 1, 0⟩
        "c" "m1" 5).writeAttempts = (⟨true, [], 1, 0⟩ : TrackerState).writeAttempts + 1 ∧
    ((⟨true, true⟩ : FsBehavior).writeFails = true →
      (trackForwardedMessage ⟨true, true⟩ ⟨true, [], 1, 0⟩
          "c" "m1" 5).persistenceWarnings =
        (⟨true, [], 1, 0⟩ : TrackerState).persistenceWarnings + 1) ∧
    getLastForwardedMessage
        (trackForwardedMessage ⟨true, true⟩ ⟨true, [], 1, 0⟩ "c" "m1" 5) "c" =
      some ⟨"m1", 5⟩ :=
  tracker_degrades_to_memory ⟨true, true⟩ ⟨true, [], 1, 0⟩ "c" "m1" 5 rfl

end MattermostBridge
